import Mathlib

/-!
Verification of the reward/goal engine with run isolation of the deep-deep
crawler, a shallow embedding of `deepdeep/spiders/extraction.py`.

Modelling conventions:
* Rewards are rationals; the source only ever adds the configured constants
  `request_reward` and `item_reward`, for which rational arithmetic is exact.
* Object identity of a scrapy response (the key of the `WeakKeyDictionary`
  reward memo) is modelled by a natural number field `pid`.
* An exception raised by the external extractor is `Except.error ()`; an
  exception escaping `get_reward` itself (the `KeyError` on a missing
  `run_id` meta entry) is `Except.error g` carrying the goal state at the
  moment of the raise, so that theorems can speak about what was mutated.
* The mutable fields of an `ExtractionGoal` instance are threaded explicitly;
  callback invocations are returned as a list of `(url, key, item)` events.
-/

/-- A fetched page (scrapy `TextResponse`) as seen by the goal and the spider:
object identity `pid` (the key the `WeakKeyDictionary` memo hashes by), the
page URL, and the `run_id` entry of the meta dict of the originating request
(`none` models an absent key; scrapy `response.meta` proxies
`response.request.meta`). -/
structure Response where
  pid : Nat
  url : String
  meta_run_id : Option String
deriving DecidableEq

/-- The external extractor collaborator: `list(self.extractor(response))`
either yields the extracted `(key, item)` pairs in order, or raises, which is
modelled as `Except.error ()`. -/
abbrev Extractor := Response → Except Unit (List (String × String))

/-- The state of an `ExtractionGoal` instance: the `(run_id, key)` dedup
ledger `extracted_items` (a Python set), the reward memo `_cache` keyed by
page identity, the configured reward constants, and whether an
`item_callback` was supplied. -/
structure ExtractionGoal where
  extracted_items : Finset (String × String)
  cache : List (Nat × ℚ)
  request_reward : ℚ
  item_reward : ℚ
  has_item_callback : Bool
deriving DecidableEq

/-- The constructor `ExtractionGoal.__init__`: empty ledger, empty memo,
`request_reward = -request_penalty` (penalty defaults to 1.0), `item_reward`
fixed at 1.0 by the source, callback as configured. -/
def ExtractionGoal.init (request_penalty : ℚ) (has_cb : Bool) : ExtractionGoal :=
  { extracted_items := ∅
    cache := []
    request_reward := -request_penalty
    item_reward := 1
    has_item_callback := has_cb }

/-- One observable run of `get_reward`: the returned reward, the goal state
after the call, the `item_callback(response.url, key, item)` invocations in
order, and whether the extractor was invoked. -/
structure RewardResult where
  reward : ℚ
  goal : ExtractionGoal
  calls : List (String × String × String)
  extractor_invoked : Bool
deriving DecidableEq

/-- The `for key, item in items` loop of `get_reward`, folded over the
extracted items: threads the score accumulator and the ledger, credits
`item_reward` exactly when the `(run_id, key)` pair is absent from the
ledger, and emits one callback event per item whenever a callback is
configured. -/
def processItems (run_id url : String) (item_reward : ℚ) (has_cb : Bool) :
    List (String × String) → Finset (String × String) → ℚ →
    ℚ × Finset (String × String) × List (String × String × String)
  | [], ledger, score => (score, ledger, [])
  | (key, item) :: rest, ledger, score =>
    let r :=
      if (run_id, key) ∈ ledger then
        processItems run_id url item_reward has_cb rest ledger score
      else
        processItems run_id url item_reward has_cb rest
          (insert (run_id, key) ledger) (score + item_reward)
    (r.1, r.2.1, (if has_cb then [(url, key, item)] else []) ++ r.2.2)

/-- The method `ExtractionGoal.get_reward`.  A memo hit returns the cached
reward with no effects; otherwise the run id is read (`Except.error g` models
the `KeyError` escaping with nothing mutated), the extractor is invoked with
a raise caught and treated as zero items, and the final score is memoized. -/
def ExtractionGoal.get_reward (g : ExtractionGoal) (extractor : Extractor)
    (response : Response) : Except ExtractionGoal RewardResult :=
  match g.cache.lookup response.pid with
  | some v => Except.ok ⟨v, g, [], false⟩
  | none =>
    match response.meta_run_id with
    | none => Except.error g
    | some run_id =>
      match extractor response with
      | Except.error _ =>
        Except.ok ⟨g.request_reward,
          { g with cache := (response.pid, g.request_reward) :: g.cache },
          [], true⟩
      | Except.ok items =>
        let r := processItems run_id response.url g.item_reward
          g.has_item_callback items g.extracted_items g.request_reward
        Except.ok ⟨r.1,
          { g with
            extracted_items := r.2.1
            cache := (response.pid, r.1) :: g.cache },
          r.2.2, true⟩

/-- A scrapy `Request`, restricted to the URL and the three meta keys the
extraction spider writes (`run_id`, `cookiejar`, `scheduler_slot`); `none`
models an absent key. -/
structure Request where
  url : String
  meta_run_id : Option String
  meta_cookiejar : Option String
  meta_scheduler_slot : Option String
deriving DecidableEq

/-- The function `set_run_id`: writes `run_id` into the three meta keys
`run_id`, `cookiejar` and `scheduler_slot` of the request. -/
def set_run_id (request : Request) (run_id : String) : Request :=
  { request with
    meta_run_id := some run_id
    meta_cookiejar := some run_id
    meta_scheduler_slot := some run_id }

namespace ExtractionSpider

/-- The method `ExtractionSpider._links_to_requests`: reads the run id of the
originating request of the parent response (a missing key raises, modelled as
`Except.error ()`) and tags every child request produced by the superclass
with it via `set_run_id`. -/
def links_to_requests (response : Response) (children : List Request) :
    Except Unit (List Request) :=
  match response.meta_run_id with
  | none => Except.error ()
  | some run_id => Except.ok (children.map (fun req => set_run_id req run_id))

end ExtractionSpider

/-- Python string formatting of the `Optional[str]` run id inside
`'{}-{}'.format(request.meta.get('run_id'), fp)`: `None` formats as the
four-character string `None`. -/
def formatOptStr : Option String → String
  | none => "None"
  | some s => s

/-- The method `RunAwareDupeFilter.request_fingerprint`: the base fingerprint
(the external canonicalization `RFPDupeFilter.request_fingerprint`,
abstracted as a function `basefp` of the request) prefixed with the formatted
run id and a dash. -/
def RunAwareDupeFilter.request_fingerprint (basefp : Request → String)
    (request : Request) : String :=
  formatOptStr request.meta_run_id ++ "-" ++ basefp request

/-- Modelled from the spec: the seen-set of the dupe filter
(`RFPDupeFilter.request_seen` is inherited from scrapy and is not part of
this repository).  The spec describes it as a standard seen-set,
`seen(fingerprint) -> bool` plus `record(fingerprint)`: the request is a
duplicate exactly when its fingerprint was already recorded, and its
fingerprint is recorded. -/
def RunAwareDupeFilter.request_seen (basefp : Request → String)
    (seen : Finset String) (request : Request) : Bool × Finset String :=
  let fp := RunAwareDupeFilter.request_fingerprint basefp request
  (decide (fp ∈ seen), insert fp seen)

/-! Concrete fixtures used by witness and counterexample theorems. -/

/-- A goal with default configuration (`request_penalty = 1.0`) and an item
callback configured, as built by `ExtractionSpider.get_goal`. -/
def goal0 : ExtractionGoal := ExtractionGoal.init 1 true

/-- A page tagged with run-0. -/
def pageX : Response := ⟨0, "http://site/x", some "run-0"⟩

/-- A second page, tagged with run-1, with a distinct identity and URL. -/
def pageY : Response := ⟨1, "http://site/y", some "run-1"⟩

/-- A page whose originating request carries no run id. -/
def pageNoRun : Response := ⟨2, "http://site/z", none⟩

/-- A third page, tagged with run-0, whose extraction yields the single key
`a` also yielded by `pageY` under run-1. -/
def pageW : Response := ⟨3, "http://site/w", some "run-0"⟩

/-- A page, tagged with run-0, on which the extractor raises. -/
def pageZ : Response := ⟨4, "http://site/zz", some "run-0"⟩

/-- An extractor yielding two items for `pageX`, the single key `a` for
`pageY` and for `pageW`, and raising on every other page. -/
def exAB : Extractor := fun p =>
  if p.pid = 0 then Except.ok [("a", "pa"), ("b", "pb")]
  else if p.pid = 1 then Except.ok [("a", "qa")]
  else if p.pid = 3 then Except.ok [("a", "ra")]
  else Except.error ()

/-- A goal whose memo already holds the reward 5 for the page of identity 0. -/
def goalCached : ExtractionGoal := { goal0 with cache := [(0, 5)] }

/-- The result of the first `get_reward` call on `pageX` under `goal0`,
spelled with the unevaluated score expressions the call builds. -/
def rwX : RewardResult :=
  ⟨goal0.request_reward + goal0.item_reward + goal0.item_reward,
    { goal0 with
      extracted_items :=
        insert ("run-0", "b") (insert ("run-0", "a") goal0.extracted_items)
      cache := [(pageX.pid,
        goal0.request_reward + goal0.item_reward + goal0.item_reward)] },
    [(pageX.url, "a", "pa"), (pageX.url, "b", "pb")], true⟩

/-- A goal state whose ledger already credits key `a` to run-0. -/
def goalSeenA : ExtractionGoal :=
  { extracted_items := {("run-0", "a")}
    cache := []
    request_reward := -1
    item_reward := 1
    has_item_callback := true }

/-- The result of the `get_reward` call on `pageX` under `goalSeenA`: the key
`a` is already in the ledger, so only `b` is credited, yet the callback fires
for both items. -/
def rwSeenA : RewardResult :=
  ⟨goalSeenA.request_reward + goalSeenA.item_reward,
    { goalSeenA with
      extracted_items := insert ("run-0", "b") goalSeenA.extracted_items
      cache := [(pageX.pid,
        goalSeenA.request_reward + goalSeenA.item_reward)] },
    [(pageX.url, "a", "pa"), (pageX.url, "b", "pb")], true⟩

/-- A request tagged with run-0. -/
def reqRun0 : Request := ⟨"http://site/x", some "run-0", some "run-0", some "run-0"⟩

/-- A request for the same URL tagged with run-1. -/
def reqRun1 : Request := ⟨"http://site/x", some "run-1", some "run-1", some "run-1"⟩

/-- Two untagged requests for the same URL. -/
def reqUntagged1 : Request := ⟨"http://site/x", none, none, none⟩

/-- A second untagged request for the same URL, differing in another field. -/
def reqUntagged2 : Request := ⟨"http://site/x", none, some "jar", none⟩

/-- A base fingerprint depending only on the URL, standing in for the external
canonicalization routine in concrete witnesses. -/
def urlFp : Request → String := fun r => r.url

/-! Helper lemmas about the item loop. -/

/-- Inserting an element and erasing it from the target have matching
cardinalities: the generic counting step behind the reward formula. -/
theorem card_insert_eq_card_erase_add_one {α : Type} [DecidableEq α]
    (k : α) (T : Finset α) : (insert k T).card = (T.erase k).card + 1 := by
  by_cases hk : k ∈ T
  · rw [Finset.insert_eq_self.mpr hk, ← Finset.card_erase_add_one hk]
  · rw [Finset.erase_eq_of_not_mem hk, Finset.card_insert_of_not_mem hk]

/-- The score produced by the item loop: the starting score plus
`item_reward` times the number of distinct extracted keys whose
`(run_id, key)` pair is absent from the starting ledger. -/
theorem processItems_reward (run_id url : String) (ir : ℚ) (cb : Bool) :
    ∀ (items : List (String × String)) (ledger : Finset (String × String))
      (score : ℚ),
    (processItems run_id url ir cb items ledger score).1 =
      score + ir * ((items.map Prod.fst).toFinset.filter
        (fun k => (run_id, k) ∉ ledger)).card := by
  intro items
  induction items with
  | nil => intro ledger score; simp [processItems]
  | cons kv rest ih =>
    intro ledger score
    obtain ⟨k, v⟩ := kv
    by_cases hmem : (run_id, k) ∈ ledger
    · simp only [processItems]
      rw [if_pos hmem, ih ledger score, List.map_cons, List.toFinset_cons,
        Finset.filter_insert, if_neg (not_not_intro hmem)]
    · simp only [processItems]
      rw [if_neg hmem, ih (insert (run_id, k) ledger) (score + ir)]
      have hfilter :
          (rest.map Prod.fst).toFinset.filter
              (fun x => (run_id, x) ∉ insert (run_id, k) ledger) =
            ((rest.map Prod.fst).toFinset.filter
              (fun x => (run_id, x) ∉ ledger)).erase k := by
        ext x
        simp only [Finset.mem_filter, Finset.mem_erase, Finset.mem_insert,
          Prod.mk.injEq, true_and, not_or]
        tauto
      rw [List.map_cons, List.toFinset_cons, Finset.filter_insert,
        if_pos hmem, hfilter, card_insert_eq_card_erase_add_one]
      push_cast
      ring

/-- The callback events produced by the item loop: one per extracted item in
order when a callback is configured, none otherwise — independent of the
ledger. -/
theorem processItems_calls (run_id url : String) (ir : ℚ) (cb : Bool) :
    ∀ (items : List (String × String)) (ledger : Finset (String × String))
      (score : ℚ),
    (processItems run_id url ir cb items ledger score).2.2 =
      if cb then items.map (fun kv => (url, kv.1, kv.2)) else [] := by
  intro items
  induction items with
  | nil => intro ledger score; cases cb <;> simp [processItems]
  | cons kv rest ih =>
    intro ledger score
    obtain ⟨k, v⟩ := kv
    by_cases hmem : (run_id, k) ∈ ledger
    · simp only [processItems]
      rw [if_pos hmem, ih ledger score]
      cases cb <;> simp
    · simp only [processItems]
      rw [if_neg hmem, ih (insert (run_id, k) ledger) (score + ir)]
      cases cb <;> simp

/-- The ledger produced by the item loop contains the starting ledger, and
contains `(run_id, k)` for every extracted key `k`. -/
theorem processItems_ledger (run_id url : String) (ir : ℚ) (cb : Bool) :
    ∀ (items : List (String × String)) (ledger : Finset (String × String))
      (score : ℚ),
    ledger ⊆ (processItems run_id url ir cb items ledger score).2.1 ∧
    ∀ k ∈ items.map Prod.fst,
      (run_id, k) ∈ (processItems run_id url ir cb items ledger score).2.1 := by
  intro items
  induction items with
  | nil => intro ledger score; simp [processItems]
  | cons kv rest ih =>
    intro ledger score
    obtain ⟨k, v⟩ := kv
    by_cases hmem : (run_id, k) ∈ ledger
    · simp only [processItems]
      rw [if_pos hmem]
      simp only [List.map_cons, List.mem_cons]
      obtain ⟨hsub, hall⟩ := ih ledger score
      refine ⟨hsub, ?_⟩
      rintro x (rfl | hx)
      · exact hsub hmem
      · exact hall x hx
    · simp only [processItems]
      rw [if_neg hmem]
      simp only [List.map_cons, List.mem_cons]
      obtain ⟨hsub, hall⟩ := ih (insert (run_id, k) ledger) (score + ir)
      refine ⟨fun x hx => hsub (Finset.mem_insert_of_mem hx), ?_⟩
      rintro x (rfl | hx)
      · exact hsub (Finset.mem_insert_self _ _)
      · exact hall x hx

/-! Shared helper lemmas about `get_reward`. -/

/-- The item loop on a single-item list whose pair is already in the ledger:
no credit, no ledger change, a callback event when configured. -/
theorem processItems_single_seen {run_id url k v : String} {ir : ℚ} {cb : Bool}
    {ledger : Finset (String × String)} {score : ℚ}
    (h : (run_id, k) ∈ ledger) :
    processItems run_id url ir cb [(k, v)] ledger score =
      (score, ledger, if cb then [(url, k, v)] else []) := by
  simp [processItems, h]

/-- The item loop on a single-item list whose pair is new: the item is
credited and recorded, with a callback event when configured. -/
theorem processItems_single_new {run_id url k v : String} {ir : ℚ} {cb : Bool}
    {ledger : Finset (String × String)} {score : ℚ}
    (h : (run_id, k) ∉ ledger) :
    processItems run_id url ir cb [(k, v)] ledger score =
      (score + ir, insert (run_id, k) ledger,
        if cb then [(url, k, v)] else []) := by
  simp [processItems, h]

/-- Looking a key up after consing an entry with a different key skips the
new entry. -/
theorem lookup_cons_of_ne (a b : Nat) (v : ℚ) (l : List (Nat × ℚ))
    (h : b ≠ a) : List.lookup b ((a, v) :: l) = List.lookup b l := by
  have hb : (b == a) = false := by simp [h]
  simp [List.lookup, hb]

/-- Looking a key up after consing an entry with that key finds the entry. -/
theorem lookup_cons_self (a : Nat) (v : ℚ) (l : List (Nat × ℚ)) :
    List.lookup a ((a, v) :: l) = some v := by
  simp [List.lookup]

/-- Unfolding of `get_reward` on a memo hit: the cached value is returned
with no effects and without invoking the extractor. -/
theorem get_reward_of_lookup (g : ExtractionGoal) (ex : Extractor)
    (p : Response) (v : ℚ) (h : g.cache.lookup p.pid = some v) :
    g.get_reward ex p = Except.ok ⟨v, g, [], false⟩ := by
  simp only [ExtractionGoal.get_reward, h]

/-- Unfolding of `get_reward` on a memo miss with a run id present and a
successful extraction. -/
theorem get_reward_eq_of_ok (g : ExtractionGoal) (ex : Extractor)
    (p : Response) (run_id : String) (items : List (String × String))
    (hcache : g.cache.lookup p.pid = none)
    (hrun : p.meta_run_id = some run_id)
    (hex : ex p = Except.ok items) :
    g.get_reward ex p = Except.ok
      ⟨(processItems run_id p.url g.item_reward g.has_item_callback items
          g.extracted_items g.request_reward).1,
        { g with
          extracted_items := (processItems run_id p.url g.item_reward
            g.has_item_callback items g.extracted_items g.request_reward).2.1
          cache := (p.pid, (processItems run_id p.url g.item_reward
            g.has_item_callback items g.extracted_items
            g.request_reward).1) :: g.cache },
        (processItems run_id p.url g.item_reward g.has_item_callback items
          g.extracted_items g.request_reward).2.2, true⟩ := by
  simp only [ExtractionGoal.get_reward, hcache, hrun, hex]

/-- Any successful `get_reward` call leaves its own reward in the memo under
the identity of the page. -/
theorem get_reward_caches (g : ExtractionGoal) (ex : Extractor)
    (p : Response) (r : RewardResult)
    (h : g.get_reward ex p = Except.ok r) :
    r.goal.cache.lookup p.pid = some r.reward := by
  unfold ExtractionGoal.get_reward at h
  cases hc : g.cache.lookup p.pid with
  | some v =>
    rw [hc] at h
    cases h
    exact hc
  | none =>
    rw [hc] at h
    cases hrun : p.meta_run_id with
    | none =>
      rw [hrun] at h
      cases h
    | some run_id =>
      rw [hrun] at h
      cases hex : ex p with
      | error e =>
        rw [hex] at h
        cases h
        exact lookup_cons_self p.pid g.request_reward g.cache
      | ok items =>
        rw [hex] at h
        cases h
        exact lookup_cons_self p.pid _ g.cache

/-- Cancelling a shared suffix of two string concatenations. -/
theorem string_append_right_cancel (a b c : String) (h : a ++ c = b ++ c) :
    a = b := by
  apply String.ext
  have hd : a.data ++ c.data = b.data ++ c.data := by
    rw [← String.data_append, ← String.data_append, h]
  exact List.append_cancel_right hd

/-! Claim theorems. -/

/-- C1: for every page whose extractor succeeds, the first call of
`get_reward` returns `request_reward` plus `item_reward` times the number of
extracted item keys not previously recorded in the ledger for the run of the
page. -/
theorem get_reward_first_call_value (g : ExtractionGoal) (ex : Extractor)
    (p : Response) (run_id : String) (items : List (String × String))
    (hcache : g.cache.lookup p.pid = none)
    (hrun : p.meta_run_id = some run_id)
    (hex : ex p = Except.ok items) :
    ∃ r : RewardResult, g.get_reward ex p = Except.ok r ∧
      r.reward = g.request_reward + g.item_reward *
        ((items.map Prod.fst).toFinset.filter
          (fun k => (run_id, k) ∉ g.extracted_items)).card :=
  ⟨_, get_reward_eq_of_ok g ex p run_id items hcache hrun hex,
    processItems_reward run_id p.url g.item_reward g.has_item_callback items
      g.extracted_items g.request_reward⟩

/-- C1 witness: under the defaults (`request_reward = -1`, `item_reward = 1`)
a run-0 page yielding the two previously unseen items `a` and `b` is rewarded
`-1 + 2 * 1 = 1`. -/
theorem get_reward_first_call_value_witness :
    ∃ r : RewardResult, goal0.get_reward exAB pageX = Except.ok r ∧
      r.reward = 1 := by
  obtain ⟨r, hr, hv⟩ := get_reward_first_call_value goal0 exAB pageX "run-0"
    [("a", "pa"), ("b", "pb")] rfl rfl rfl
  refine ⟨r, hr, ?_⟩
  rw [hv]
  have hcard : (((([("a", "pa"), ("b", "pb")] : List (String × String)).map
      Prod.fst).toFinset).filter
      (fun k => ("run-0", k) ∉ goal0.extracted_items)).card = 2 := by decide
  rw [hcard]
  norm_num [goal0, ExtractionGoal.init]

/-- C3: a `get_reward` call repeated on the same page (with the same backing
content, hence the same extractor) returns the value memoized by the first
call. -/
theorem get_reward_idempotent (g : ExtractionGoal) (ex : Extractor)
    (p : Response) (r : RewardResult)
    (h : g.get_reward ex p = Except.ok r) :
    ∃ r' : RewardResult, r.goal.get_reward ex p = Except.ok r' ∧
      r'.reward = r.reward :=
  ⟨⟨r.reward, r.goal, [], false⟩,
    get_reward_of_lookup r.goal ex p r.reward (get_reward_caches g ex p r h),
    rfl⟩

/-- C3 witness: the second call on `pageX` returns the value the first call
computed and memoized. -/
theorem get_reward_idempotent_witness :
    ∃ r' : RewardResult, rwX.goal.get_reward exAB pageX = Except.ok r' ∧
      r'.reward = rwX.reward :=
  get_reward_idempotent goal0 exAB pageX rwX rfl

/-- C4: when the extractor raises, `get_reward` catches the exception,
returns exactly `request_reward`, leaves the ledger unchanged and invokes no
callback. -/
theorem get_reward_extractor_raises (g : ExtractionGoal) (ex : Extractor)
    (p : Response) (run_id : String)
    (hcache : g.cache.lookup p.pid = none)
    (hrun : p.meta_run_id = some run_id)
    (hex : ex p = Except.error ()) :
    ∃ r : RewardResult, g.get_reward ex p = Except.ok r ∧
      r.reward = g.request_reward ∧
      r.goal.extracted_items = g.extracted_items ∧
      r.calls = [] := by
  refine ⟨⟨g.request_reward,
    { g with cache := (p.pid, g.request_reward) :: g.cache }, [], true⟩,
    ?_, rfl, rfl, rfl⟩
  simp only [ExtractionGoal.get_reward, hcache, hrun, hex]

/-- C4 witness: the extractor raises on `pageZ`; the reward is exactly
`request_reward` and the ledger is untouched. -/
theorem get_reward_extractor_raises_witness :
    ∃ r : RewardResult, goal0.get_reward exAB pageZ = Except.ok r ∧
      r.reward = goal0.request_reward ∧
      r.goal.extracted_items = goal0.extracted_items ∧
      r.calls = [] :=
  get_reward_extractor_raises goal0 exAB pageZ "run-0" rfl rfl rfl

/-- C5: a page without a run id makes `get_reward` raise (the `KeyError` on
`response.meta` escapes), with neither the memo nor the ledger mutated: the
escaping state equals the starting state. -/
theorem get_reward_missing_run_id (g : ExtractionGoal) (ex : Extractor)
    (p : Response)
    (hcache : g.cache.lookup p.pid = none)
    (hrun : p.meta_run_id = none) :
    g.get_reward ex p = Except.error g := by
  simp only [ExtractionGoal.get_reward, hcache, hrun]

/-- C5 witness: the untagged page `pageNoRun` makes `get_reward` raise with
the state unchanged. -/
theorem get_reward_missing_run_id_witness :
    goal0.get_reward exAB pageNoRun = Except.error goal0 :=
  get_reward_missing_run_id goal0 exAB pageNoRun rfl rfl

/-- C9: a `get_reward` call on a page whose reward is memoized has no side
effects: the state is unchanged, no callback fires and the extractor is not
invoked. -/
theorem get_reward_cached_pure (g : ExtractionGoal) (ex : Extractor)
    (p : Response) (v : ℚ) (h : g.cache.lookup p.pid = some v) :
    g.get_reward ex p = Except.ok ⟨v, g, [], false⟩ :=
  get_reward_of_lookup g ex p v h

/-- C9 witness: under `goalCached` the page of identity 0 is served from the
memo with no effects, whatever the extractor would do. -/
theorem get_reward_cached_pure_witness :
    goalCached.get_reward exAB pageX = Except.ok ⟨5, goalCached, [], false⟩ :=
  get_reward_cached_pure goalCached exAB pageX 5 rfl

/-- C2: crediting an item key to one run does not prevent a different run
from being credited for the same key: after a page of run R1 extracts K, a
page of run R2 extracting K is still rewarded `request_reward + item_reward`
and `(R2, K)` is recorded, because ledger entries are `(run, key)` pairs. -/
theorem ledger_run_isolation (g : ExtractionGoal) (ex : Extractor)
    (p1 p2 : Response) (R1 R2 K v1 v2 : String)
    (hne : R1 ≠ R2) (hpid : p1.pid ≠ p2.pid)
    (h1cache : g.cache.lookup p1.pid = none)
    (h2cache : g.cache.lookup p2.pid = none)
    (h1run : p1.meta_run_id = some R1)
    (h2run : p2.meta_run_id = some R2)
    (h1ex : ex p1 = Except.ok [(K, v1)])
    (h2ex : ex p2 = Except.ok [(K, v2)])
    (hK2 : (R2, K) ∉ g.extracted_items) :
    ∃ r1 r2 : RewardResult,
      g.get_reward ex p1 = Except.ok r1 ∧
      r1.goal.get_reward ex p2 = Except.ok r2 ∧
      (R1, K) ∈ r1.goal.extracted_items ∧
      (R2, K) ∈ r2.goal.extracted_items ∧
      r2.reward = g.request_reward + g.item_reward := by
  have hKne : (R2, K) ≠ (R1, K) := fun h => hne ((congrArg Prod.fst h).symm)
  have h1 := get_reward_eq_of_ok g ex p1 R1 [(K, v1)] h1cache h1run h1ex
  by_cases h1K : (R1, K) ∈ g.extracted_items
  · rw [processItems_single_seen h1K] at h1
    have hc2 : List.lookup p2.pid
        ((p1.pid, g.request_reward) :: g.cache) = none :=
      (lookup_cons_of_ne p1.pid p2.pid g.request_reward g.cache
        (Ne.symm hpid)).trans h2cache
    have h2 := get_reward_eq_of_ok
      { g with cache := (p1.pid, g.request_reward) :: g.cache }
      ex p2 R2 [(K, v2)] hc2 h2run h2ex
    rw [processItems_single_new hK2] at h2
    exact ⟨⟨g.request_reward,
        { g with cache := (p1.pid, g.request_reward) :: g.cache },
        if g.has_item_callback then [(p1.url, K, v1)] else [], true⟩,
      ⟨g.request_reward + g.item_reward,
        { g with
          extracted_items := insert (R2, K) g.extracted_items
          cache := (p2.pid, g.request_reward + g.item_reward) ::
            (p1.pid, g.request_reward) :: g.cache },
        if g.has_item_callback then [(p2.url, K, v2)] else [], true⟩,
      h1, h2, h1K, Finset.mem_insert_self _ _, rfl⟩
  · rw [processItems_single_new h1K] at h1
    have hc2 : List.lookup p2.pid
        ((p1.pid, g.request_reward + g.item_reward) :: g.cache) = none :=
      (lookup_cons_of_ne p1.pid p2.pid _ g.cache (Ne.symm hpid)).trans h2cache
    have hK2' : (R2, K) ∉ insert (R1, K) g.extracted_items := by
      rw [Finset.mem_insert]
      rintro (h | h)
      · exact hKne h
      · exact hK2 h
    have h2 := get_reward_eq_of_ok
      { g with
        extracted_items := insert (R1, K) g.extracted_items
        cache := (p1.pid, g.request_reward + g.item_reward) :: g.cache }
      ex p2 R2 [(K, v2)] hc2 h2run h2ex
    rw [processItems_single_new hK2'] at h2
    exact ⟨⟨g.request_reward + g.item_reward,
        { g with
          extracted_items := insert (R1, K) g.extracted_items
          cache := (p1.pid, g.request_reward + g.item_reward) :: g.cache },
        if g.has_item_callback then [(p1.url, K, v1)] else [], true⟩,
      ⟨g.request_reward + g.item_reward,
        { g with
          extracted_items := insert (R2, K) (insert (R1, K) g.extracted_items)
          cache := (p2.pid, g.request_reward + g.item_reward) ::
            (p1.pid, g.request_reward + g.item_reward) :: g.cache },
        if g.has_item_callback then [(p2.url, K, v2)] else [], true⟩,
      h1, h2, Finset.mem_insert_self _ _, Finset.mem_insert_self _ _, rfl⟩

/-- C2 witness: `pageW` (run-0) and `pageY` (run-1) both extract the key `a`;
run-1 is still credited after run-0 was. -/
theorem ledger_run_isolation_witness :
    ∃ r1 r2 : RewardResult,
      goal0.get_reward exAB pageW = Except.ok r1 ∧
      r1.goal.get_reward exAB pageY = Except.ok r2 ∧
      ("run-0", "a") ∈ r1.goal.extracted_items ∧
      ("run-1", "a") ∈ r2.goal.extracted_items ∧
      r2.reward = goal0.request_reward + goal0.item_reward :=
  ledger_run_isolation goal0 exAB pageW pageY "run-0" "run-1" "a" "ra" "qa"
    (by decide) (by decide) rfl rfl rfl rfl rfl rfl (by decide)

/-- C6 counterexample: under `goalSeenA` the pair `(run-0, a)` is already in
the ledger, yet the reward computation on `pageX` still invokes the callback
for the item with key `a` — the source invokes the callback for every
extracted item, not only for items absent from the ledger. -/
theorem item_callback_fires_on_seen_item :
    ("run-0", "a") ∈ goalSeenA.extracted_items ∧
    goalSeenA.get_reward exAB pageX = Except.ok rwSeenA ∧
    (pageX.url, "a", "pa") ∈ rwSeenA.calls :=
  ⟨by decide, rfl, by decide⟩

/-- C6 amended: during an uncached reward computation with a callback
configured, the callback is invoked once per extracted item, in extraction
order, regardless of whether the `(run, key)` pair was already in the
ledger; only the reward credit and the ledger write are first-seen-per-run. -/
theorem item_callback_every_item (g : ExtractionGoal) (ex : Extractor)
    (p : Response) (run_id : String) (items : List (String × String))
    (hcache : g.cache.lookup p.pid = none)
    (hrun : p.meta_run_id = some run_id)
    (hex : ex p = Except.ok items)
    (hcb : g.has_item_callback = true) :
    ∃ r : RewardResult, g.get_reward ex p = Except.ok r ∧
      r.calls = items.map (fun kv => (p.url, kv.1, kv.2)) := by
  refine ⟨_, get_reward_eq_of_ok g ex p run_id items hcache hrun hex, ?_⟩
  rw [processItems_calls, hcb]
  simp

/-- C6 amended witness: on `pageX` the callback fires for both extracted
items. -/
theorem item_callback_every_item_witness :
    ∃ r : RewardResult, goal0.get_reward exAB pageX = Except.ok r ∧
      r.calls = ([("a", "pa"), ("b", "pb")] : List (String × String)).map
        (fun kv => (pageX.url, kv.1, kv.2)) :=
  item_callback_every_item goal0 exAB pageX "run-0" [("a", "pa"), ("b", "pb")]
    rfl rfl rfl rfl

/-- C7: with identical base fingerprints, requests of different runs receive
different fingerprints and never mark each other as duplicates, while
requests of the same run receive the same fingerprint and the second is a
duplicate once the first is recorded. -/
theorem run_aware_fingerprint_contract (basefp : Request → String)
    (r1 r2 : Request) (R1 R2 : String)
    (h1 : r1.meta_run_id = some R1) (h2 : r2.meta_run_id = some R2)
    (hfp : basefp r1 = basefp r2) :
    (R1 ≠ R2 →
      RunAwareDupeFilter.request_fingerprint basefp r1 ≠
        RunAwareDupeFilter.request_fingerprint basefp r2 ∧
      ∀ seen : Finset String,
        RunAwareDupeFilter.request_fingerprint basefp r2 ∉ seen →
        (RunAwareDupeFilter.request_seen basefp
          (RunAwareDupeFilter.request_seen basefp seen r1).2 r2).1 = false) ∧
    (R1 = R2 →
      RunAwareDupeFilter.request_fingerprint basefp r1 =
        RunAwareDupeFilter.request_fingerprint basefp r2 ∧
      ∀ seen : Finset String,
        (RunAwareDupeFilter.request_seen basefp
          (RunAwareDupeFilter.request_seen basefp seen r1).2 r2).1 = true) := by
  have e1 : RunAwareDupeFilter.request_fingerprint basefp r1 =
      R1 ++ "-" ++ basefp r2 := by
    simp only [RunAwareDupeFilter.request_fingerprint, h1, formatOptStr, hfp]
  have e2 : RunAwareDupeFilter.request_fingerprint basefp r2 =
      R2 ++ "-" ++ basefp r2 := by
    simp only [RunAwareDupeFilter.request_fingerprint, h2, formatOptStr]
  constructor
  · intro hne
    have hfpne : RunAwareDupeFilter.request_fingerprint basefp r1 ≠
        RunAwareDupeFilter.request_fingerprint basefp r2 := by
      rw [e1, e2]
      intro heq
      exact hne (string_append_right_cancel R1 R2 "-"
        (string_append_right_cancel (R1 ++ "-") (R2 ++ "-") (basefp r2) heq))
    refine ⟨hfpne, fun seen hnotin => ?_⟩
    simp only [RunAwareDupeFilter.request_seen]
    rw [decide_eq_false_iff_not, Finset.mem_insert]
    rintro (he | hm)
    · exact hfpne he.symm
    · exact hnotin hm
  · intro heqR
    subst heqR
    have hfpeq : RunAwareDupeFilter.request_fingerprint basefp r1 =
        RunAwareDupeFilter.request_fingerprint basefp r2 := e1.trans e2.symm
    refine ⟨hfpeq, fun seen => ?_⟩
    simp only [RunAwareDupeFilter.request_seen]
    rw [decide_eq_true_eq, ← hfpeq]
    exact Finset.mem_insert_self _ _

/-- C7 witness: for the same URL, run-0 and run-1 requests have different
fingerprints and do not collide in the seen-set, while re-testing the run-0
request after recording it reports a duplicate. -/
theorem run_aware_fingerprint_contract_witness :
    RunAwareDupeFilter.request_fingerprint urlFp reqRun0 ≠
      RunAwareDupeFilter.request_fingerprint urlFp reqRun1 ∧
    (RunAwareDupeFilter.request_seen urlFp
      (RunAwareDupeFilter.request_seen urlFp ∅ reqRun0).2 reqRun1).1 = false ∧
    (RunAwareDupeFilter.request_seen urlFp
      (RunAwareDupeFilter.request_seen urlFp ∅ reqRun0).2 reqRun0).1 = true := by
  obtain ⟨hdiff, _⟩ := run_aware_fingerprint_contract urlFp reqRun0 reqRun1
    "run-0" "run-1" rfl rfl rfl
  obtain ⟨hfpne, hnot⟩ := hdiff (by decide)
  obtain ⟨_, hsame⟩ := run_aware_fingerprint_contract urlFp reqRun0 reqRun0
    "run-0" "run-0" rfl rfl rfl
  obtain ⟨_, hdup⟩ := hsame rfl
  exact ⟨hfpne, hnot ∅ (by decide), hdup ∅⟩

/-- C8: every child request derived from the links of a response is tagged
with the run id of the originating request of the response, and tagging sets
the run id, the cookie jar key and the scheduler slot all to that value. -/
theorem links_to_requests_tagged (p : Response) (run_id : String)
    (children : List Request) (hrun : p.meta_run_id = some run_id) :
    ∃ out : List Request,
      ExtractionSpider.links_to_requests p children = Except.ok out ∧
      ∀ req ∈ out, req.meta_run_id = some run_id ∧
        req.meta_cookiejar = some run_id ∧
        req.meta_scheduler_slot = some run_id := by
  refine ⟨children.map (fun req => set_run_id req run_id), ?_, ?_⟩
  · simp only [ExtractionSpider.links_to_requests, hrun]
  · intro req hreq
    obtain ⟨q, hq, rfl⟩ := List.mem_map.mp hreq
    exact ⟨rfl, rfl, rfl⟩

/-- C8 witness: a child link of the run-0 page `pageX` is tagged run-0 in
all three meta keys. -/
theorem links_to_requests_tagged_witness :
    ∃ out : List Request,
      ExtractionSpider.links_to_requests pageX [reqUntagged1] =
        Except.ok out ∧
      ∀ req ∈ out, req.meta_run_id = some "run-0" ∧
        req.meta_cookiejar = some "run-0" ∧
        req.meta_scheduler_slot = some "run-0" :=
  links_to_requests_tagged pageX "run-0" [reqUntagged1] rfl

/-- C10: the filter does not fail on an untagged request: the fingerprint is
the string None- followed by the base fingerprint, so untagged requests with
equal base fingerprints fall into one pseudo-run and are duplicates of one
another. -/
theorem untagged_requests_grouped (basefp : Request → String)
    (r1 r2 : Request)
    (h1 : r1.meta_run_id = none) (h2 : r2.meta_run_id = none)
    (hfp : basefp r1 = basefp r2) :
    RunAwareDupeFilter.request_fingerprint basefp r1 =
      "None-" ++ basefp r1 ∧
    RunAwareDupeFilter.request_fingerprint basefp r2 =
      "None-" ++ basefp r1 ∧
    ∀ seen : Finset String,
      (RunAwareDupeFilter.request_seen basefp
        (RunAwareDupeFilter.request_seen basefp seen r1).2 r2).1 = true := by
  have e1 : RunAwareDupeFilter.request_fingerprint basefp r1 =
      "None-" ++ basefp r1 := by
    simp only [RunAwareDupeFilter.request_fingerprint, h1, formatOptStr]
    rfl
  have e2 : RunAwareDupeFilter.request_fingerprint basefp r2 =
      "None-" ++ basefp r1 := by
    simp only [RunAwareDupeFilter.request_fingerprint, h2, formatOptStr, hfp]
    rfl
  have hfpeq : RunAwareDupeFilter.request_fingerprint basefp r1 =
      RunAwareDupeFilter.request_fingerprint basefp r2 := e1.trans e2.symm
  refine ⟨e1, e2, fun seen => ?_⟩
  simp only [RunAwareDupeFilter.request_seen]
  rw [decide_eq_true_eq, ← hfpeq]
  exact Finset.mem_insert_self _ _

/-- C10 witness: two untagged requests for the same URL share the
fingerprint None-http://site/x and the second is reported a duplicate after
the first is recorded. -/
theorem untagged_requests_grouped_witness :
    RunAwareDupeFilter.request_fingerprint urlFp reqUntagged1 =
      "None-" ++ urlFp reqUntagged1 ∧
    RunAwareDupeFilter.request_fingerprint urlFp reqUntagged2 =
      "None-" ++ urlFp reqUntagged1 ∧
    (RunAwareDupeFilter.request_seen urlFp
      (RunAwareDupeFilter.request_seen urlFp ∅ reqUntagged1).2
      reqUntagged2).1 = true := by
  obtain ⟨a, b, c⟩ := untagged_requests_grouped urlFp reqUntagged1
    reqUntagged2 rfl rfl rfl
  exact ⟨a, b, c ∅⟩
